import Mathlib

/-!
Verification development for the warp-pipe Axon worker.

The applier, coordinator loop and verifier are embedded from `src/axon.go`.
Helper functions of this repository that are not under `src/`
(`getPrimaryKeyForChange`, `insertRow`, `updateRow`, `deleteRow`, the
`db.Table` descriptor, the notify listener, and the current `AxonConfig`
declaration) are modelled from the specification, as marked on each
definition.  Database drivers are represented by oracle functions passed as
parameters: a statement-execution oracle for the applier and a
query-to-scan-result oracle for each side of the verifier.
-/

namespace WarpPipe

deriving instance DecidableEq for Except

/-- The kind of a changeset, from the spec data model (§3 `action`). -/
inductive ChangesetKind
  | insert
  | update
  | delete
deriving DecidableEq, Repr

/-- A changeset, per the spec data model (§3): id, action, schema and table
name, and the new and old column-value maps (values kept as strings; their
content is never inspected by the embedded code). -/
structure Changeset where
  id : Int
  kind : ChangesetKind
  schema : String
  table : String
  newValues : List (String × String)
  oldValues : List (String × String)
deriving DecidableEq, Repr

/-- Log severities used by the worker (logrus levels that appear in
`src/axon.go`). -/
inductive LogLevel
  | info
  | warn
  | error
deriving DecidableEq, Repr

/-- One emitted log entry. -/
structure LogEntry where
  level : LogLevel
  msg : String
deriving DecidableEq, Repr

/-- The kind of SQL statement executed on the target. -/
inductive StmtKind
  | insertStmt
  | updateStmt
  | deleteStmt
deriving DecidableEq, Repr

/-- A statement executed against the target database: its kind, the schema
and table it addresses, and its bound arguments. -/
structure Statement where
  kind : StmtKind
  schema : String
  table : String
  args : List (String × String)
deriving DecidableEq, Repr

/-- Outcome reported by the target driver for one executed statement:
success, a duplicate-key (primary-key conflict) error, or another error. -/
inductive ExecResult
  | ok
  | duplicateKey
  | failed (e : String)
deriving DecidableEq, Repr

/-- The error value, if any, carried by a driver outcome. -/
def execError : ExecResult → Option String
  | .ok => none
  | .duplicateKey => some "duplicate key value violates unique constraint"
  | .failed e => some e

/-- Modelled from the spec: `getPrimaryKeyForChange` is not under `src/`.
Per §4.C and §7, the primary key of an Update/Delete changeset is extracted
from `old_values`, and extraction fails exactly when `old_values` is missing
(empty); on success the key projection is returned. -/
def getPrimaryKeyForChange (c : Changeset) : Except String (List (String × String)) :=
  if c.oldValues.isEmpty then .error "changeset has no primary key"
  else .ok c.oldValues

/-- Modelled from the spec: `deleteRow` is not under `src/`.  Per §4.C it
builds `DELETE FROM "schema"."table" WHERE ...` from the key columns and
executes it on the target; the executed statement and the driver error, if
any, are returned. -/
def deleteRow (db : Statement → ExecResult) (c : Changeset)
    (pk : List (String × String)) : List Statement × Option String :=
  let stmt : Statement := ⟨.deleteStmt, c.schema, c.table, pk⟩
  ([stmt], execError (db stmt))

/-- Modelled from the spec: `updateRow` is not under `src/`.  Per §4.C it
builds `UPDATE "schema"."table" SET ... WHERE ...` over the non-key columns
of `new_values` with the key in the WHERE clause and executes it; if
`new_values` is empty or equals the key-only projection the update is a
no-op and is skipped. -/
def updateRow (db : Statement → ExecResult) (c : Changeset)
    (pk : List (String × String)) : List Statement × Option String :=
  let nonKey := c.newValues.filter (fun kv => !(pk.any (fun p => p.1 == kv.1)))
  if nonKey.isEmpty then ([], none)
  else
    let stmt : Statement := ⟨.updateStmt, c.schema, c.table, pk⟩
    ([stmt], execError (db stmt))

/-- Modelled from the spec: `insertRow` is not under `src/`.  Per §4.C it
builds an INSERT from `new_values` and executes it; per §4.C and §7 a
duplicate-key (primary-key) conflict on a replayed Insert is logged as a
warning and not returned as an error, while any other driver error is
returned to the caller.  Sequence advancement (§4.C `setval`) touches no
claim and is not modelled. -/
def insertRow (db : Statement → ExecResult) (c : Changeset) :
    List LogEntry × List Statement × Option String :=
  let stmt : Statement := ⟨.insertStmt, c.schema, c.table, c.newValues⟩
  match db stmt with
  | .ok => ([], [stmt], none)
  | .duplicateKey =>
      ([⟨.warn, "duplicate key on replayed INSERT, row already present"⟩], [stmt], none)
  | .failed e => ([], [stmt], some e)

/-- `Axon.processDelete` from `src/axon.go`: extracts the primary key; on an
extraction error it logs at error level but does not return, so `deleteRow`
is still called with the zero-value key; any error from `deleteRow` is also
logged. -/
def processDelete (db : Statement → ExecResult) (c : Changeset) :
    List LogEntry × List Statement :=
  let pkRes := getPrimaryKeyForChange c
  let logs1 : List LogEntry :=
    match pkRes with
    | .error _ =>
        [⟨.error, "unable to process DELETE for table " ++ c.table ++ ", changeset has no primary key"⟩]
    | .ok _ => []
  let pk := pkRes.toOption.getD []
  let r := deleteRow db c pk
  let logs2 : List LogEntry :=
    match r.2 with
    | some _ => [⟨.error, "failed to DELETE row for table " ++ c.table⟩]
    | none => []
  (logs1 ++ logs2, r.1)

/-- `Axon.processUpdate` from `src/axon.go`: extracts the primary key; on an
extraction error it logs at error level but does not return, so `updateRow`
is still called with the zero-value key; any error from `updateRow` is also
logged. -/
def processUpdate (db : Statement → ExecResult) (c : Changeset) :
    List LogEntry × List Statement :=
  let pkRes := getPrimaryKeyForChange c
  let logs1 : List LogEntry :=
    match pkRes with
    | .error _ =>
        [⟨.error, "unable to process UPDATE for table " ++ c.table ++ ", changeset has no primary key"⟩]
    | .ok _ => []
  let pk := pkRes.toOption.getD []
  let r := updateRow db c pk
  let logs2 : List LogEntry :=
    match r.2 with
    | some _ => [⟨.error, "failed to UPDATE row for table " ++ c.table⟩]
    | none => []
  (logs1 ++ logs2, r.1)

/-- `Axon.processInsert` from `src/axon.go`: calls `insertRow` and logs at
error level if it returns an error. -/
def processInsert (db : Statement → ExecResult) (c : Changeset) :
    List LogEntry × List Statement :=
  let r := insertRow db c
  let logs2 : List LogEntry :=
    match r.2.2 with
    | some _ => [⟨.error, "failed to INSERT row for table " ++ c.table⟩]
    | none => []
  (r.1 ++ logs2, r.2.1)

/-- `Axon.processChange` from `src/axon.go`: dispatch on the changeset kind.
It returns no error to its caller; everything is logged internally. -/
def processChange (db : Statement → ExecResult) (c : Changeset) :
    List LogEntry × List Statement :=
  match c.kind with
  | .insert => processInsert db c
  | .update => processUpdate db c
  | .delete => processDelete db c

/-- Claim C1: for an Update or Delete changeset whose primary key cannot be
extracted, the applier logs the error and skips the change, executing no
UPDATE or DELETE statement against the target.  Evaluated at the failing
input (a Delete and an Update changeset with empty `old_values`): the key
extraction fails and the error is logged, yet `processDelete` and
`processUpdate` still execute a DELETE and an UPDATE statement, because the
error branches in `src/axon.go` do not return. -/
theorem processDelete_update_emptyPK_still_execute :
    (getPrimaryKeyForChange ⟨1, .delete, "public", "t", [], []⟩ =
      .error "changeset has no primary key") ∧
    (processDelete (fun _ => .ok) ⟨1, .delete, "public", "t", [], []⟩ =
      ([⟨.error, "unable to process DELETE for table t, changeset has no primary key"⟩],
        [⟨.deleteStmt, "public", "t", []⟩])) ∧
    (processUpdate (fun _ => .ok) ⟨2, .update, "public", "t", [("v", "b")], []⟩ =
      ([⟨.error, "unable to process UPDATE for table t, changeset has no primary key"⟩],
        [⟨.updateStmt, "public", "t", []⟩])) := by
  refine ⟨rfl, ?_, ?_⟩ <;> decide

/-- The Axon configuration.  The credential fields, `TargetDBSchema`
(envconfig default `public`) and `ShutdownAfterLastChangeset` follow the
`AxonConfig` struct declared under
`src/build/demo-service/vendor/github.com/perangel/warp-pipe/db/wal2json.go`.
Modelled from the spec: the current declaration of the struct is not under
`src/` (the vendored copy is a stale snapshot without the field), while
`src/axon.go` reads `a.Config.StartFromID`; per §6 the configuration
recognizes `AXON_START_FROM_ID` (integer), embedded as `startFromID`. -/
structure AxonConfig where
  sourceDBHost : String
  sourceDBPort : Int
  sourceDBName : String
  sourceDBUser : String
  sourceDBPass : String
  targetDBHost : String
  targetDBPort : Int
  targetDBName : String
  targetDBUser : String
  targetDBPass : String
  targetDBSchema : String
  shutdownAfterLastChangeset : Bool
  startFromID : Int
deriving DecidableEq, Repr

/-- The process environment, as seen by configuration loading. -/
structure Env where
  lookup : String → Option String

/-- Modelled from the spec: environment-variable configuration loading is an
out-of-scope collaborator with a fixed interface (§1); `envconfig` reads
`AXON_<OPTION>` for each tagged field and applies the declared default only
when the variable is unset (a variable set to the empty string keeps the
empty string). -/
def envString (env : Env) (key dflt : String) : String :=
  match env.lookup key with
  | none => dflt
  | some v => v

/-- Accumulate base-10 digits, failing on a non-digit character. -/
def parseNatAux : List Char → Nat → Option Nat
  | [], acc => some acc
  | c :: cs, acc =>
      if c.isDigit then parseNatAux cs (acc * 10 + (c.toNat - 48)) else none

/-- Base-10 integer parsing with an optional leading minus sign. -/
def parseIntString (s : String) : Option Int :=
  match s.data with
  | [] => none
  | '-' :: c :: cs => (parseNatAux (c :: cs) 0).map (fun n => -(n : Int))
  | c :: cs => (parseNatAux (c :: cs) 0).map (fun n => (n : Int))

/-- Modelled from the spec: integer option parsing by the configuration
loader; an unset variable yields the zero value, an unparsable one is a
configuration error. -/
def envInt (env : Env) (key : String) : Except String Int :=
  match env.lookup key with
  | none => .ok 0
  | some v =>
      match parseIntString v with
      | some n => .ok n
      | none => .error ("failed to process environment config: " ++ key)

/-- Modelled from the spec: boolean option parsing by the configuration
loader; an unset variable yields false. -/
def envBool (env : Env) (key : String) : Except String Bool :=
  match env.lookup key with
  | none => .ok false
  | some v =>
      if v == "true" || v == "1" then .ok true
      else if v == "false" || v == "0" then .ok false
      else .error ("failed to process environment config: " ++ key)

/-- `NewAxonConfigFromEnv` from `src/axon.go`: loads the Axon configuration
from the environment via `envconfig.Process("axon", ...)`. -/
def NewAxonConfigFromEnv (env : Env) : Except String AxonConfig :=
  match envInt env "AXON_SOURCE_DB_PORT" with
  | .error e => .error e
  | .ok sport =>
    match envInt env "AXON_TARGET_DB_PORT" with
    | .error e => .error e
    | .ok tport =>
      match envBool env "AXON_SHUTDOWN_AFTER_LAST_CHANGESET" with
      | .error e => .error e
      | .ok drain =>
        match envInt env "AXON_START_FROM_ID" with
        | .error e => .error e
        | .ok sfid =>
          .ok
            { sourceDBHost := envString env "AXON_SOURCE_DB_HOST" ""
              sourceDBPort := sport
              sourceDBName := envString env "AXON_SOURCE_DB_NAME" ""
              sourceDBUser := envString env "AXON_SOURCE_DB_USER" ""
              sourceDBPass := envString env "AXON_SOURCE_DB_PASS" ""
              targetDBHost := envString env "AXON_TARGET_DB_HOST" ""
              targetDBPort := tport
              targetDBName := envString env "AXON_TARGET_DB_NAME" ""
              targetDBUser := envString env "AXON_TARGET_DB_USER" ""
              targetDBPass := envString env "AXON_TARGET_DB_PASS" ""
              targetDBSchema := envString env "AXON_TARGET_DB_SCHEMA" "public"
              shutdownAfterLastChangeset := drain
              startFromID := sfid }

/-- The schema override in `Axon.Run` (`src/axon.go`): if a target database
schema has been configured (non-empty), replace the changeset schema with it
before processing. -/
def applyOverride (cfg : AxonConfig) (c : Changeset) : Changeset :=
  if cfg.targetDBSchema ≠ "" then { c with schema := cfg.targetDBSchema } else c

/-- One resolution of the select in `Axon.Run`: delivery of the shutdown
signal, an error from the listener error stream, or a changeset from the
changes stream. -/
inductive Event
  | signal
  | listenerError (e : String)
  | change (c : Changeset)
deriving DecidableEq, Repr

/-- How the embedded `Axon.Run` loop ended: still blocked (in the select,
or in a blocking channel send) after the given events and select choices,
returned nil after shutdown, or returned an error. -/
inductive RunOutcome
  | running
  | stopped
  | failed (e : String)
deriving DecidableEq, Repr

/-- The observable trace of the `Axon.Run` loop: changesets handed to
`processChange` (after the schema override), log entries, statements
executed on the target, and how the loop ended. -/
structure LoopTrace where
  applied : List Changeset
  logs : List LogEntry
  stmts : List Statement
  outcome : RunOutcome
deriving DecidableEq, Repr

/-- Prepend the effects of one processed changeset to a trace. -/
def consTrace (c : Changeset) (logs : List LogEntry) (stmts : List Statement)
    (t : LoopTrace) : LoopTrace :=
  ⟨c :: t.applied, logs ++ t.logs, stmts ++ t.stmts, t.outcome⟩

/-- The select loop of `Axon.Run` (`src/axon.go`), over a finite list of
select resolutions.  `Axon.Shutdown` sends on the buffered shutdown channel;
the boolean argument records that a shutdown signal is pending, and this
restricted model resolves the select in favour of the ready shutdown channel
at the next iteration -- one of the schedules of the real select, which has
no such priority; `runLoopSel` below carries the select choice explicitly
and is used where that choice matters.  On a changeset: apply the schema
override, call `processChange` (which returns no error), then in drain mode
consult `IsLatestChangeSet` with the changeset id -- a query failure returns
an error from `Run`, and a positive answer logs and initiates shutdown. -/
def runLoop (cfg : AxonConfig) (isLatest : Int → Except String Bool)
    (db : Statement → ExecResult) : Bool → List Event → LoopTrace
  | true, _ => ⟨[], [⟨.error, "shutting down..."⟩], [], .stopped⟩
  | false, [] => ⟨[], [], [], .running⟩
  | false, .signal :: _ => ⟨[], [⟨.error, "shutting down..."⟩], [], .stopped⟩
  | false, .listenerError e :: _ =>
      ⟨[], [], [], .failed ("listener received an error: " ++ e)⟩
  | false, .change c :: rest =>
      let c2 := applyOverride cfg c
      let pr := processChange db c2
      if cfg.shutdownAfterLastChangeset then
        match isLatest c2.id with
        | .error e =>
            ⟨[c2], pr.1, pr.2, .failed ("failed to determine if the sync is complete: " ++ e)⟩
        | .ok true =>
            consTrace c2 (pr.1 ++ [⟨.info, "sync is complete. shutting down..."⟩]) pr.2
              (runLoop cfg isLatest db true rest)
        | .ok false => consTrace c2 pr.1 pr.2 (runLoop cfg isLatest db false rest)
      else consTrace c2 pr.1 pr.2 (runLoop cfg isLatest db false rest)

/-- The select loop of `Axon.Run` with the select resolution made explicit:
Go's select chooses uniformly among ready cases, so when a shutdown signal
is buffered (`pending = true`) and a further event is ready, a schedule
boolean is consumed -- `true` means the select takes the ready shutdown
channel (Run returns nil), `false` means it takes the ready event first.
With no event ready only the signal is ready and the loop returns nil; with
the schedule exhausted the trace is cut off (`running`).  A second
drain-triggered `Shutdown()` while the one-slot channel is still full would
block its send forever (`src/axon.go:260` sends on a channel of capacity 1
from the receiving goroutine), modelled as `running`.  With `pending =
false` the loop behaves exactly as `runLoop`, threading the schedule. -/
def runLoopSel (cfg : AxonConfig) (isLatest : Int → Except String Bool)
    (db : Statement → ExecResult) : List Bool → Bool → List Event → LoopTrace
  | _, true, [] => ⟨[], [⟨.error, "shutting down..."⟩], [], .stopped⟩
  | [], true, _ :: _ => ⟨[], [], [], .running⟩
  | true :: _, true, _ :: _ => ⟨[], [⟨.error, "shutting down..."⟩], [], .stopped⟩
  | false :: _, true, .signal :: _ => ⟨[], [⟨.error, "shutting down..."⟩], [], .stopped⟩
  | false :: _, true, .listenerError e :: _ =>
      ⟨[], [], [], .failed ("listener received an error: " ++ e)⟩
  | false :: bs, true, .change c :: rest =>
      let c2 := applyOverride cfg c
      let pr := processChange db c2
      if cfg.shutdownAfterLastChangeset then
        match isLatest c2.id with
        | .error e =>
            ⟨[c2], pr.1, pr.2, .failed ("failed to determine if the sync is complete: " ++ e)⟩
        | .ok true =>
            ⟨[c2], pr.1 ++ [⟨.info, "sync is complete. shutting down..."⟩], pr.2, .running⟩
        | .ok false => consTrace c2 pr.1 pr.2 (runLoopSel cfg isLatest db bs true rest)
      else consTrace c2 pr.1 pr.2 (runLoopSel cfg isLatest db bs true rest)
  | _, false, [] => ⟨[], [], [], .running⟩
  | _, false, .signal :: _ => ⟨[], [⟨.error, "shutting down..."⟩], [], .stopped⟩
  | _, false, .listenerError e :: _ =>
      ⟨[], [], [], .failed ("listener received an error: " ++ e)⟩
  | sched, false, .change c :: rest =>
      let c2 := applyOverride cfg c
      let pr := processChange db c2
      if cfg.shutdownAfterLastChangeset then
        match isLatest c2.id with
        | .error e =>
            ⟨[c2], pr.1, pr.2, .failed ("failed to determine if the sync is complete: " ++ e)⟩
        | .ok true =>
            consTrace c2 (pr.1 ++ [⟨.info, "sync is complete. shutting down..."⟩]) pr.2
              (runLoopSel cfg isLatest db sched true rest)
        | .ok false => consTrace c2 pr.1 pr.2 (runLoopSel cfg isLatest db sched false rest)
      else consTrace c2 pr.1 pr.2 (runLoopSel cfg isLatest db sched false rest)

/-- `Axon.Run` constructs the notify listener starting from the configured
changeset id (`NewNotifyListener (StartFromID (a.Config.StartFromID))` in
`src/axon.go`). -/
def runListenerStartID (cfg : AxonConfig) : Int := cfg.startFromID

/-- A sample changeset for concrete instantiations. -/
def sampleChange : Changeset := ⟨1, .insert, "app", "t", [("id", "1")], []⟩

/-- A sample configuration (defaults: schema `public`, no drain mode). -/
def sampleCfg : AxonConfig :=
  ⟨"sh", 5432, "sdb", "su", "sp", "th", 5432, "tdb", "tu", "tp", "public", false, 0⟩

/-- The sample configuration with drain mode enabled. -/
def drainCfg : AxonConfig := { sampleCfg with shutdownAfterLastChangeset := true }

/-- The sample configuration with a `mirror` target schema. -/
def mirrorCfg : AxonConfig := { sampleCfg with targetDBSchema := "mirror" }

theorem insertRow_stmts (db : Statement → ExecResult) (c : Changeset) :
    (insertRow db c).2.1 = [⟨.insertStmt, c.schema, c.table, c.newValues⟩] := by
  simp only [insertRow]
  cases hdb : db ⟨.insertStmt, c.schema, c.table, c.newValues⟩ <;> rfl

theorem processInsert_stmts (db : Statement → ExecResult) (c : Changeset) :
    (processInsert db c).2 = [⟨.insertStmt, c.schema, c.table, c.newValues⟩] := by
  simp only [processInsert]
  rw [insertRow_stmts]

theorem processDelete_stmts (db : Statement → ExecResult) (c : Changeset) :
    (processDelete db c).2 =
      [⟨.deleteStmt, c.schema, c.table, (getPrimaryKeyForChange c).toOption.getD []⟩] := by
  simp [processDelete, deleteRow]

theorem processUpdate_stmt_schema (db : Statement → ExecResult) (c : Changeset) :
    ∀ s ∈ (processUpdate db c).2, s.schema = c.schema := by
  intro s hs
  simp only [processUpdate, updateRow] at hs
  split at hs
  · simp at hs
  · simp at hs
    subst hs
    rfl

theorem processChange_stmt_schema (db : Statement → ExecResult) (c : Changeset) :
    ∀ s ∈ (processChange db c).2, s.schema = c.schema := by
  intro s hs
  cases hk : c.kind
  · simp only [processChange, hk, processInsert_stmts, List.mem_singleton] at hs
    subst hs
    rfl
  · exact processUpdate_stmt_schema db c s (by simpa only [processChange, hk] using hs)
  · simp only [processChange, hk, processDelete_stmts, List.mem_singleton] at hs
    subst hs
    rfl

theorem runLoop_applied_mem (cfg : AxonConfig) (isLatest : Int → Except String Bool)
    (db : Statement → ExecResult) :
    ∀ (events : List Event) (pending : Bool) (x : Changeset),
      x ∈ (runLoop cfg isLatest db pending events).applied →
      ∃ c, Event.change c ∈ events ∧ x = applyOverride cfg c := by
  intro events
  induction events with
  | nil =>
    intro pending x hx
    cases pending <;> simp [runLoop] at hx
  | cons e rest ih =>
    intro pending x hx
    cases pending with
    | true => simp [runLoop] at hx
    | false =>
      cases e with
      | signal => simp [runLoop] at hx
      | listenerError m => simp [runLoop] at hx
      | change c =>
        cases hd : cfg.shutdownAfterLastChangeset with
        | false =>
          simp only [runLoop, hd, Bool.false_eq_true, if_false, consTrace,
            List.mem_cons] at hx
          rcases hx with rfl | hx
          · exact ⟨c, List.mem_cons_self _ _, rfl⟩
          · obtain ⟨c', h1, h2⟩ := ih false x hx
            exact ⟨c', List.mem_cons_of_mem _ h1, h2⟩
        | true =>
          cases hl : isLatest (applyOverride cfg c).id with
          | error m =>
            simp only [runLoop, hd, if_true, hl, List.mem_singleton] at hx
            exact ⟨c, List.mem_cons_self _ _, hx⟩
          | ok b =>
            cases b with
            | true =>
              simp only [runLoop, hd, if_true, hl, consTrace, List.mem_cons,
                List.not_mem_nil, or_false] at hx
              exact ⟨c, List.mem_cons_self _ _, hx⟩
            | false =>
              simp only [runLoop, hd, if_true, hl, consTrace, List.mem_cons] at hx
              rcases hx with rfl | hx
              · exact ⟨c, List.mem_cons_self _ _, rfl⟩
              · obtain ⟨c', h1, h2⟩ := ih false x hx
                exact ⟨c', List.mem_cons_of_mem _ h1, h2⟩

theorem runLoop_stmt_mem (cfg : AxonConfig) (isLatest : Int → Except String Bool)
    (db : Statement → ExecResult) :
    ∀ (events : List Event) (pending : Bool) (s : Statement),
      s ∈ (runLoop cfg isLatest db pending events).stmts →
      ∃ c, Event.change c ∈ events ∧ s.schema = (applyOverride cfg c).schema := by
  intro events
  induction events with
  | nil =>
    intro pending s hs
    cases pending <;> simp [runLoop] at hs
  | cons e rest ih =>
    intro pending s hs
    cases pending with
    | true => simp [runLoop] at hs
    | false =>
      cases e with
      | signal => simp [runLoop] at hs
      | listenerError m => simp [runLoop] at hs
      | change c =>
        cases hd : cfg.shutdownAfterLastChangeset with
        | false =>
          simp only [runLoop, hd, Bool.false_eq_true, if_false, consTrace,
            List.mem_append] at hs
          rcases hs with hs | hs
          · exact ⟨c, List.mem_cons_self _ _,
              processChange_stmt_schema db (applyOverride cfg c) s hs⟩
          · obtain ⟨c', h1, h2⟩ := ih false s hs
            exact ⟨c', List.mem_cons_of_mem _ h1, h2⟩
        | true =>
          cases hl : isLatest (applyOverride cfg c).id with
          | error m =>
            simp only [runLoop, hd, if_true, hl] at hs
            exact ⟨c, List.mem_cons_self _ _,
              processChange_stmt_schema db (applyOverride cfg c) s hs⟩
          | ok b =>
            cases b with
            | true =>
              simp only [runLoop, hd, if_true, hl, consTrace, List.append_nil] at hs
              exact ⟨c, List.mem_cons_self _ _,
                processChange_stmt_schema db (applyOverride cfg c) s hs⟩
            | false =>
              simp only [runLoop, hd, if_true, hl, consTrace, List.mem_append] at hs
              rcases hs with hs | hs
              · exact ⟨c, List.mem_cons_self _ _,
                  processChange_stmt_schema db (applyOverride cfg c) s hs⟩
              · obtain ⟨c', h1, h2⟩ := ih false s hs
                exact ⟨c', List.mem_cons_of_mem _ h1, h2⟩

theorem applyOverride_schema (cfg : AxonConfig) (c : Changeset)
    (h : cfg.targetDBSchema ≠ "") :
    (applyOverride cfg c).schema = cfg.targetDBSchema := by
  simp [applyOverride, h]

/-- Claim C7: when the configured target schema is non-empty, every
changeset handed to `processChange` by the run loop carries the overridden
schema, and every statement executed on the target addresses the overridden
schema rather than the source schema. -/
theorem run_schema_override (cfg : AxonConfig) (isLatest : Int → Except String Bool)
    (db : Statement → ExecResult) (pending : Bool) (events : List Event)
    (h : cfg.targetDBSchema ≠ "") :
    ((runLoop cfg isLatest db pending events).applied.all
      (fun c => c.schema == cfg.targetDBSchema) = true) ∧
    ((runLoop cfg isLatest db pending events).stmts.all
      (fun s => s.schema == cfg.targetDBSchema) = true) := by
  constructor
  · rw [List.all_eq_true]
    intro x hx
    obtain ⟨c, _, rfl⟩ := runLoop_applied_mem cfg isLatest db events pending x hx
    simp [applyOverride_schema cfg c h]
  · rw [List.all_eq_true]
    intro s hs
    obtain ⟨c, _, h2⟩ := runLoop_stmt_mem cfg isLatest db events pending s hs
    rw [applyOverride_schema cfg c h] at h2
    simp [h2]

/-- Witness for C7: a concrete run with target schema `mirror` rewrites the
received changeset and its statement to the `mirror` schema. -/
theorem run_schema_override_witness :
    ((runLoop mirrorCfg (fun _ => .ok false) (fun _ => .ok) false
        [Event.change sampleChange]).applied.all
      (fun c => c.schema == mirrorCfg.targetDBSchema) = true) ∧
    ((runLoop mirrorCfg (fun _ => .ok false) (fun _ => .ok) false
        [Event.change sampleChange]).stmts.all
      (fun s => s.schema == mirrorCfg.targetDBSchema) = true) :=
  run_schema_override mirrorCfg (fun _ => .ok false) (fun _ => .ok) false
    [Event.change sampleChange] (by decide)

/-- Counterexample to C8 as stated: `Axon.Shutdown` only buffers a signal,
and Go's select gives it no priority over a changeset already buffered on
the changes channel, so after catching up Run may still apply a further
changeset before the signal wins the select.  Concretely: drain mode on,
the applied changeset (id 1) is reported as the maximum, a second changeset
(id 3) is already buffered, and the schedule lets the changes channel win
the next select -- the second changeset is applied too, so the run does
continue applying past the catch-up point. -/
theorem run_drain_mode_stops_counterexample :
    ¬ (∀ (cfg : AxonConfig) (isLatest : Int → Except String Bool)
          (db : Statement → ExecResult) (c : Changeset) (rest : List Event)
          (sched : List Bool),
        cfg.shutdownAfterLastChangeset = true →
        isLatest (applyOverride cfg c).id = .ok true →
        (runLoopSel cfg isLatest db sched false (Event.change c :: rest)).outcome =
            .stopped ∧
        (runLoopSel cfg isLatest db sched false (Event.change c :: rest)).applied =
            [applyOverride cfg c]) := by
  intro h
  have hx := h drainCfg (fun i => .ok (decide (i = 1))) (fun _ => .ok) sampleChange
    [Event.change ⟨3, .insert, "app", "t", [("id", "3")], []⟩] [false] rfl (by decide)
  exact absurd hx.2 (by decide)

/-- Claim C8 as amended: with `ShutdownAfterLastChangeset` enabled, after a
changeset whose id `IsLatestChangeSet` reports as the source maximum, the
loop logs and initiates shutdown (the signal is buffered); from then on the
run returns nil as soon as the shutdown case wins the select -- immediately
when no further event is ready, and with nothing further applied from the
moment the signal is taken -- and in particular the schedule on which the
ready signal always wins applies exactly the caught-up changeset and
returns nil.  Because select has no priority, other schedules may first
apply changesets already buffered (see the counterexample). -/
theorem run_drain_mode_initiates_shutdown (cfg : AxonConfig)
    (isLatest : Int → Except String Bool) (db : Statement → ExecResult)
    (c : Changeset) (rest : List Event) (sched : List Bool)
    (h1 : cfg.shutdownAfterLastChangeset = true)
    (h2 : isLatest (applyOverride cfg c).id = .ok true) :
    (runLoopSel cfg isLatest db sched false (Event.change c :: rest) =
      consTrace (applyOverride cfg c)
        ((processChange db (applyOverride cfg c)).1 ++
          [⟨.info, "sync is complete. shutting down..."⟩])
        (processChange db (applyOverride cfg c)).2
        (runLoopSel cfg isLatest db sched true rest)) ∧
    (∀ bs : List Bool, (runLoopSel cfg isLatest db bs true []).outcome = .stopped) ∧
    (∀ (bs : List Bool) (es : List Event),
        (runLoopSel cfg isLatest db (true :: bs) true es).outcome = .stopped ∧
        (runLoopSel cfg isLatest db (true :: bs) true es).applied = []) ∧
    (∀ bs : List Bool,
        (runLoopSel cfg isLatest db (true :: bs) false
            (Event.change c :: rest)).outcome = .stopped ∧
        (runLoopSel cfg isLatest db (true :: bs) false
            (Event.change c :: rest)).applied = [applyOverride cfg c]) := by
  have hstep : ∀ s : List Bool,
      runLoopSel cfg isLatest db s false (Event.change c :: rest) =
        consTrace (applyOverride cfg c)
          ((processChange db (applyOverride cfg c)).1 ++
            [⟨.info, "sync is complete. shutting down..."⟩])
          (processChange db (applyOverride cfg c)).2
          (runLoopSel cfg isLatest db s true rest) := by
    intro s
    simp [runLoopSel, h1, h2]
  have hnil : ∀ bs : List Bool,
      (runLoopSel cfg isLatest db bs true []).outcome = .stopped := by
    intro bs
    simp [runLoopSel]
  have hstop : ∀ (bs : List Bool) (es : List Event),
      (runLoopSel cfg isLatest db (true :: bs) true es).outcome = .stopped ∧
      (runLoopSel cfg isLatest db (true :: bs) true es).applied = [] := by
    intro bs es
    cases es <;> simp [runLoopSel]
  refine ⟨hstep sched, hnil, hstop, ?_⟩
  intro bs
  rw [hstep (true :: bs)]
  have hs := hstop bs rest
  exact ⟨by simp [consTrace, hs.1], by simp [consTrace, hs.2]⟩

/-- Witness for the amended C8: with the schedule on which the ready
signal wins the select, a concrete drain-mode run applies only the
caught-up changeset and returns nil even though a further changeset is
buffered. -/
theorem run_drain_mode_initiates_shutdown_witness :
    (runLoopSel drainCfg (fun _ => .ok true) (fun _ => .ok) [true] false
        [Event.change sampleChange, Event.change sampleChange]).outcome = .stopped ∧
    (runLoopSel drainCfg (fun _ => .ok true) (fun _ => .ok) [true] false
        [Event.change sampleChange, Event.change sampleChange]).applied =
      [applyOverride drainCfg sampleChange] :=
  (run_drain_mode_initiates_shutdown drainCfg (fun _ => .ok true) (fun _ => .ok)
      sampleChange [Event.change sampleChange] [true] rfl rfl).2.2.2 []

/-- Counterexample to C2 as stated: with drain mode enabled, a failure of
the `IsLatestChangeSet` query makes `Run` return a non-nil error even
though no listener-fatal error was received on the error stream. -/
theorem run_terminates_beyond_listener_errors :
    ¬ (∀ (cfg : AxonConfig) (isLatest : Int → Except String Bool)
          (db : Statement → ExecResult) (events : List Event) (e : String),
        (runLoop cfg isLatest db false events).outcome = .failed e →
        ∃ m, Event.listenerError m ∈ events) := by
  intro h
  rcases h drainCfg (fun _ => .error "query failed") (fun _ => .ok)
      [Event.change sampleChange]
      "failed to determine if the sync is complete: query failed"
      (by decide) with ⟨m, hm⟩
  simp at hm

/-- Claim C2 as amended: errors arising while applying a changeset are never
returned from the run loop (its outcome does not depend on the statement
oracle at all), and a non-nil error return originates either from the
listener error stream or, when drain mode is enabled, from a failure of the
`IsLatestChangeSet` query. -/
theorem run_failed_origins (cfg : AxonConfig) (isLatest : Int → Except String Bool) :
    (∀ (db : Statement → ExecResult) (pending : Bool) (events : List Event) (e : String),
        (runLoop cfg isLatest db pending events).outcome = .failed e →
        (∃ m, Event.listenerError m ∈ events ∧ e = "listener received an error: " ++ m) ∨
        (cfg.shutdownAfterLastChangeset = true ∧
          ∃ i msg, isLatest i = .error msg ∧
            e = "failed to determine if the sync is complete: " ++ msg)) ∧
    (∀ (db db2 : Statement → ExecResult) (pending : Bool) (events : List Event),
        (runLoop cfg isLatest db pending events).outcome =
          (runLoop cfg isLatest db2 pending events).outcome) := by
  constructor
  · intro db pending events
    induction events generalizing pending with
    | nil =>
      intro e he
      cases pending <;> simp [runLoop] at he
    | cons ev rest ih =>
      intro e he
      cases pending with
      | true => simp [runLoop] at he
      | false =>
        cases ev with
        | signal => simp [runLoop] at he
        | listenerError m =>
          simp only [runLoop] at he
          cases he
          exact Or.inl ⟨m, List.mem_cons_self _ _, rfl⟩
        | change c =>
          rcases Bool.dichotomy cfg.shutdownAfterLastChangeset with hd | hd
          · simp only [runLoop, hd, Bool.false_eq_true, if_false, consTrace] at he
            rcases ih false e he with h1 | h2
            · obtain ⟨m, hm, hmsg⟩ := h1
              exact Or.inl ⟨m, List.mem_cons_of_mem _ hm, hmsg⟩
            · exact Or.inr h2
          · cases hl : isLatest (applyOverride cfg c).id with
            | error m =>
              simp only [runLoop, hd, if_true, hl] at he
              cases he
              exact Or.inr ⟨hd, (applyOverride cfg c).id, m, hl, rfl⟩
            | ok b =>
              cases b with
              | true =>
                simp [runLoop, hd, hl, consTrace] at he
              | false =>
                simp only [runLoop, hd, if_true, hl, consTrace] at he
                rcases ih false e he with h1 | h2
                · obtain ⟨m, hm, hmsg⟩ := h1
                  exact Or.inl ⟨m, List.mem_cons_of_mem _ hm, hmsg⟩
                · exact Or.inr h2
  · intro db db2 pending events
    induction events generalizing pending with
    | nil => cases pending <;> simp [runLoop]
    | cons ev rest ih =>
      cases pending with
      | true => simp [runLoop]
      | false =>
        cases ev with
        | signal => simp [runLoop]
        | listenerError m => simp [runLoop]
        | change c =>
          cases hd : cfg.shutdownAfterLastChangeset with
          | false =>
            simp only [runLoop, hd, Bool.false_eq_true, if_false, consTrace]
            exact ih false
          | true =>
            cases hl : isLatest (applyOverride cfg c).id with
            | error m => simp only [runLoop, hd, if_true, hl]
            | ok b =>
              cases b with
              | true => simp only [runLoop, hd, if_true, hl, consTrace]
              | false =>
                simp only [runLoop, hd, if_true, hl, consTrace]
                exact ih false

/-- Witness for C2 as amended: a concrete failed run is traced back to the
listener error stream. -/
theorem run_failed_origins_witness :
    (∃ m, Event.listenerError m ∈ [Event.listenerError "conn reset"] ∧
      "listener received an error: conn reset" = "listener received an error: " ++ m) ∨
    (sampleCfg.shutdownAfterLastChangeset = true ∧
      ∃ i msg, (fun (_ : Int) => (Except.ok true : Except String Bool)) i = .error msg ∧
        "listener received an error: conn reset" =
          "failed to determine if the sync is complete: " ++ msg) :=
  (run_failed_origins sampleCfg (fun _ => .ok true)).1 (fun _ => .ok) false
    [Event.listenerError "conn reset"] "listener received an error: conn reset" (by decide)

/-- Claim C3: a primary-key conflict on a replayed Insert is logged at
warning severity, no error is returned from the apply path, and the loop
continues past the changeset (the cursor advances). -/
theorem insert_conflict_is_warning (db : Statement → ExecResult) (c : Changeset)
    (hdup : db ⟨.insertStmt, c.schema, c.table, c.newValues⟩ = .duplicateKey) :
    (insertRow db c =
      ([⟨.warn, "duplicate key on replayed INSERT, row already present"⟩],
        [⟨.insertStmt, c.schema, c.table, c.newValues⟩], none)) ∧
    (processInsert db c =
      ([⟨.warn, "duplicate key on replayed INSERT, row already present"⟩],
        [⟨.insertStmt, c.schema, c.table, c.newValues⟩])) ∧
    (∀ l ∈ (processInsert db c).1, l.level = .warn) ∧
    (∀ (cfg : AxonConfig) (isLatest : Int → Except String Bool) (rest : List Event),
        cfg.shutdownAfterLastChangeset = false → cfg.targetDBSchema = "" →
        (runLoop cfg isLatest db false (Event.change c :: rest)).outcome =
            (runLoop cfg isLatest db false rest).outcome ∧
        (runLoop cfg isLatest db false (Event.change c :: rest)).applied =
            c :: (runLoop cfg isLatest db false rest).applied) := by
  have hins : insertRow db c =
      ([⟨.warn, "duplicate key on replayed INSERT, row already present"⟩],
        [⟨.insertStmt, c.schema, c.table, c.newValues⟩], none) := by
    simp [insertRow, hdup]
  have hpi : processInsert db c =
      ([⟨.warn, "duplicate key on replayed INSERT, row already present"⟩],
        [⟨.insertStmt, c.schema, c.table, c.newValues⟩]) := by
    simp [processInsert, hins]
  refine ⟨hins, hpi, ?_, ?_⟩
  · intro l hl
    rw [hpi] at hl
    simp at hl
    rw [hl]
  · intro cfg isLatest rest h1 h2
    have hov : applyOverride cfg c = c := by simp [applyOverride, h2]
    simp [runLoop, h1, hov, consTrace]

/-- Witness for C3: a concrete duplicate-key insert produces exactly the
warning log, the insert statement, and no error. -/
theorem insert_conflict_is_warning_witness :
    insertRow (fun _ => .duplicateKey) sampleChange =
      ([⟨.warn, "duplicate key on replayed INSERT, row already present"⟩],
        [⟨.insertStmt, sampleChange.schema, sampleChange.table, sampleChange.newValues⟩],
        none) :=
  (insert_conflict_is_warning (fun _ => .duplicateKey) sampleChange rfl).1

/-- Modelled from the spec: the `db.Table` descriptor returned by
`db.GenerateTablesList` is not under `src/`.  Per §3 it carries
`(schema, name)` and the ordered, positionally indexed list of primary-key
column names; in the Go code `PKeyFields` maps the 1-based ordinal position
`p` (positions exactly `1..n`) to a column name, embedded here as the
ordered list whose index `p-1` holds the column at position `p`. -/
structure Table where
  schema : String
  name : String
  pkeyFields : List String
deriving DecidableEq, Repr

/-- Double-quote an identifier, as the `"%s"` verbs in `Axon.Verify` do. -/
def quoteIdent (s : String) : String := "\"" ++ s ++ "\""

/-- One fully qualified primary-key column reference as formatted by
`Axon.Verify` (`src/axon.go`). -/
def pkColumnRef (t : Table) (column : String) : String :=
  quoteIdent t.schema ++ "." ++ quoteIdent t.name ++ "." ++ quoteIdent column

/-- Write `v` at index `i` of `xs`; `none` models the bounds panic of a Go
slice write at an out-of-range index. -/
def setAt (xs : List String) (i : Nat) (v : String) : Option (List String) :=
  if i < xs.length then some (xs.set i v) else none

/-- The `pkColumns` loop of `Axon.Verify`: iterate the position-to-column
entries (positions ascending; the resulting buffer does not depend on the
Go map iteration order, each slot being written exactly once) and write the
formatted reference for position `pos` into slot `pos - 1`. -/
def writeSlots (t : Table) : List String → Nat → List String → Option (List String)
  | buf, _, [] => some buf
  | buf, pos, col :: cols =>
      match setAt buf (pos - 1) (pkColumnRef t col) with
      | none => none
      | some buf2 => writeSlots t buf2 (pos + 1) cols

/-- `pkColumns := make([]string, len(table.PKeyFields))` followed by the
write loop of `Axon.Verify`. -/
def buildPKColumns (t : Table) : Option (List String) :=
  writeSlots t (List.replicate t.pkeyFields.length "") 1 t.pkeyFields

/-- The ORDER BY clause built by `Axon.Verify`. -/
def orderByClause (cols : List String) : String :=
  "ORDER BY " ++ String.intercalate "," cols

/-- The checksum query text built by `Axon.Verify` (`src/axon.go`). -/
def checksumQuery (t : Table) (orderBy : String) : String :=
  "SELECT pg_md5_hashagg(md5(CAST((" ++ quoteIdent t.schema ++ "." ++ quoteIdent t.name ++
    ".*)AS TEXT))" ++ orderBy ++ ") FROM " ++ quoteIdent t.schema ++ "." ++ quoteIdent t.name

/-- The full checksum query for a table, with the ORDER BY clause over the
built primary-key column slice. -/
def tableQuery (t : Table) : String :=
  checksumQuery t (orderByClause ((buildPKColumns t).getD []))

/-- The error message of `Axon.Verify` for a table without a primary key. -/
def noPkMsg (t : Table) : String :=
  "table " ++ quoteIdent t.schema ++ "." ++ quoteIdent t.name ++
    " has no primary key, cannot guarantee checksum match"

/-- The error message of `Axon.Verify` for a checksum mismatch. -/
def differMsg (t : Table) : String :=
  "checksums differ for table " ++ t.schema ++ "." ++ t.name

/-- The observable trace of `Axon.Verify`: the tables whose checksum query
was executed, the query texts sent to the source and to the target
connection, and the returned value. -/
structure VerifyTrace where
  hashed : List Table
  srcQueries : List String
  tgtQueries : List String
  result : Except String Unit
deriving Repr

/-- The per-table loop of `Axon.Verify` (`src/axon.go`): reject a table
without a primary key; build the ORDER BY clause from the primary-key
positions; run the same query text on the source and on the target (each
connection is an oracle from query text to scan outcome); abort on the
first scan error or checksum difference; return `ok` when every selected
table matches. -/
def verifyTables (src tgt : String → Except String String) : List Table → VerifyTrace
  | [] => ⟨[], [], [], .ok ()⟩
  | t :: rest =>
      if t.pkeyFields.length < 1 then ⟨[], [], [], .error (noPkMsg t)⟩
      else
        match buildPKColumns t with
        | none => ⟨[], [], [], .error "runtime error: index out of range"⟩
        | some cols =>
            let q := checksumQuery t (orderByClause cols)
            match src q with
            | .error e =>
                ⟨[t], [q], [], .error ("failed to scan the source checksum for table " ++
                  t.schema ++ "." ++ t.name ++ ": " ++ e)⟩
            | .ok s =>
                match tgt q with
                | .error e =>
                    ⟨[t], [q], [q], .error ("failed to scan the target checksum for table " ++
                      t.schema ++ "." ++ t.name ++ ": " ++ e)⟩
                | .ok g =>
                    if s ≠ g then ⟨[t], [q], [q], .error (differMsg t)⟩
                    else
                      let v := verifyTables src tgt rest
                      ⟨t :: v.hashed, q :: v.srcQueries, q :: v.tgtQueries, v.result⟩

/-- Whether a scan outcome is a success. -/
def exceptIsOk : Except String String → Bool
  | .ok _ => true
  | .error _ => false

/-- A table that the verifier passes through without aborting: it has a
primary key and both connections scan the same checksum for it. -/
def tablePasses (src tgt : String → Except String String) (t : Table) : Bool :=
  decide (1 ≤ t.pkeyFields.length) &&
    (match src (tableQuery t), tgt (tableQuery t) with
     | .ok a, .ok b => a == b
     | _, _ => false)

theorem exceptIsOk_iff (r : Except String String) :
    exceptIsOk r = true ↔ ∃ a, r = .ok a := by
  cases r <;> simp [exceptIsOk]

theorem set_at_mid (pre : List String) (x v : String) (rest : List String) :
    (pre ++ x :: rest).set pre.length v = pre ++ v :: rest := by
  induction pre with
  | nil => rfl
  | cons p ps ih => simp [List.set, ih]

theorem writeSlots_spec (t : Table) :
    ∀ (cols pre : List String),
      writeSlots t (pre ++ List.replicate cols.length "") (pre.length + 1) cols =
        some (pre ++ cols.map (pkColumnRef t)) := by
  intro cols
  induction cols with
  | nil => intro pre; simp [writeSlots]
  | cons col cs ih =>
    intro pre
    rw [List.length_cons, List.replicate_succ]
    simp only [writeSlots, List.map_cons]
    have hlen : pre.length + 1 - 1 = pre.length := by omega
    rw [hlen]
    have hb : setAt (pre ++ "" :: List.replicate cs.length "") pre.length
        (pkColumnRef t col) =
        some (pre ++ pkColumnRef t col :: List.replicate cs.length "") := by
      unfold setAt
      rw [if_pos (by simp), set_at_mid]
    rw [hb]
    have hrec := ih (pre ++ [pkColumnRef t col])
    simp only [List.append_assoc, List.singleton_append, List.length_append,
      List.length_cons, List.length_nil] at hrec
    convert hrec using 2

theorem buildPKColumns_eq (t : Table) :
    buildPKColumns t = some (t.pkeyFields.map (pkColumnRef t)) := by
  have h := writeSlots_spec t t.pkeyFields []
  simpa [buildPKColumns] using h

theorem tableQuery_eq (t : Table) :
    tableQuery t =
      checksumQuery t (orderByClause (t.pkeyFields.map (pkColumnRef t))) := by
  rw [tableQuery, buildPKColumns_eq t]
  rfl

theorem verify_cons_noPk (src tgt : String → Except String String) (t : Table)
    (rest : List Table) (h : t.pkeyFields.length < 1) :
    verifyTables src tgt (t :: rest) = ⟨[], [], [], .error (noPkMsg t)⟩ := by
  simp [verifyTables, h]

theorem verify_cons_srcErr (src tgt : String → Except String String) (t : Table)
    (rest : List Table) (e : String) (hpk : 1 ≤ t.pkeyFields.length)
    (hs : src (tableQuery t) = .error e) :
    verifyTables src tgt (t :: rest) =
      ⟨[t], [tableQuery t], [], .error ("failed to scan the source checksum for table " ++
        t.schema ++ "." ++ t.name ++ ": " ++ e)⟩ := by
  have hne : ¬ (t.pkeyFields.length < 1) := by omega
  simp [verifyTables, buildPKColumns_eq, ← tableQuery_eq, hs, hne]

theorem verify_cons_tgtErr (src tgt : String → Except String String) (t : Table)
    (rest : List Table) (a e : String) (hpk : 1 ≤ t.pkeyFields.length)
    (hs : src (tableQuery t) = .ok a) (htg : tgt (tableQuery t) = .error e) :
    verifyTables src tgt (t :: rest) =
      ⟨[t], [tableQuery t], [tableQuery t],
        .error ("failed to scan the target checksum for table " ++
          t.schema ++ "." ++ t.name ++ ": " ++ e)⟩ := by
  have hne : ¬ (t.pkeyFields.length < 1) := by omega
  simp [verifyTables, buildPKColumns_eq, ← tableQuery_eq, hs, htg, hne]

theorem verify_cons_differ (src tgt : String → Except String String) (t : Table)
    (rest : List Table) (a b : String) (hpk : 1 ≤ t.pkeyFields.length)
    (hs : src (tableQuery t) = .ok a) (htg : tgt (tableQuery t) = .ok b)
    (hab : a ≠ b) :
    verifyTables src tgt (t :: rest) =
      ⟨[t], [tableQuery t], [tableQuery t], .error (differMsg t)⟩ := by
  have hne : ¬ (t.pkeyFields.length < 1) := by omega
  simp [verifyTables, buildPKColumns_eq, ← tableQuery_eq, hs, htg, hne, hab]

theorem verify_cons_ok (src tgt : String → Except String String) (t : Table)
    (rest : List Table) (a : String) (hpk : 1 ≤ t.pkeyFields.length)
    (hs : src (tableQuery t) = .ok a) (htg : tgt (tableQuery t) = .ok a) :
    verifyTables src tgt (t :: rest) =
      ⟨t :: (verifyTables src tgt rest).hashed,
        tableQuery t :: (verifyTables src tgt rest).srcQueries,
        tableQuery t :: (verifyTables src tgt rest).tgtQueries,
        (verifyTables src tgt rest).result⟩ := by
  have hne : ¬ (t.pkeyFields.length < 1) := by omega
  simp [verifyTables, buildPKColumns_eq, ← tableQuery_eq, hs, htg, hne]

theorem tablePasses_elim (src tgt : String → Except String String) (t : Table)
    (h : tablePasses src tgt t = true) :
    1 ≤ t.pkeyFields.length ∧
      ∃ a, src (tableQuery t) = .ok a ∧ tgt (tableQuery t) = .ok a := by
  simp only [tablePasses, Bool.and_eq_true] at h
  obtain ⟨h1, h2⟩ := h
  refine ⟨by simpa using h1, ?_⟩
  rcases hs : src (tableQuery t) with e | a
  · simp [hs] at h2
  · rcases ht : tgt (tableQuery t) with e2 | b
    · simp [hs, ht] at h2
    · simp only [hs, ht, beq_iff_eq] at h2
      exact ⟨a, rfl, by rw [h2]⟩

/-- Claim C4: the verifier checks for a primary key before hashing -- a
table without one aborts the run with an error naming it, before its
checksum query is executed, and every table whose checksum query does get
executed has at least one primary-key field. -/
theorem verify_requires_primary_key (src tgt : String → Except String String) :
    (∀ tables : List Table,
        ∀ u ∈ (verifyTables src tgt tables).hashed, 1 ≤ u.pkeyFields.length) ∧
    (∀ (pre : List Table) (t : Table) (post : List Table),
        (∀ u ∈ pre, tablePasses src tgt u = true) → t.pkeyFields.length < 1 →
        (verifyTables src tgt (pre ++ t :: post)).result = .error (noPkMsg t) ∧
        (verifyTables src tgt (pre ++ t :: post)).hashed = pre) := by
  constructor
  · intro tables
    induction tables with
    | nil => intro u hu; simp [verifyTables] at hu
    | cons t rest ih =>
      intro u hu
      by_cases hpk : t.pkeyFields.length < 1
      · rw [verify_cons_noPk src tgt t rest hpk] at hu
        simp at hu
      · have hpk' : 1 ≤ t.pkeyFields.length := by omega
        rcases hs : src (tableQuery t) with e | a
        · rw [verify_cons_srcErr src tgt t rest e hpk' hs] at hu
          simp at hu
          rw [hu]
          exact hpk'
        · rcases ht : tgt (tableQuery t) with e2 | b
          · rw [verify_cons_tgtErr src tgt t rest a e2 hpk' hs ht] at hu
            simp at hu
            rw [hu]
            exact hpk'
          · by_cases hab : a = b
            · subst hab
              rw [verify_cons_ok src tgt t rest a hpk' hs ht] at hu
              simp only [List.mem_cons] at hu
              rcases hu with rfl | hu
              · exact hpk'
              · exact ih u hu
            · rw [verify_cons_differ src tgt t rest a b hpk' hs ht hab] at hu
              simp at hu
              rw [hu]
              exact hpk'
  · intro pre t post
    induction pre with
    | nil =>
      intro _ hnopk
      rw [List.nil_append, verify_cons_noPk src tgt t post hnopk]
      exact ⟨rfl, rfl⟩
    | cons u us ih =>
      intro hall hnopk
      have hu := hall u (List.mem_cons_self _ _)
      obtain ⟨hpk, a, hs, ht⟩ := tablePasses_elim src tgt u hu
      have hrec := ih (fun v hv => hall v (List.mem_cons_of_mem _ hv)) hnopk
      rw [List.cons_append, verify_cons_ok src tgt u (us ++ t :: post) a hpk hs ht]
      exact ⟨hrec.1, by rw [show (⟨u :: _, _, _, _⟩ : VerifyTrace).hashed = u ::
        (verifyTables src tgt (us ++ t :: post)).hashed from rfl, hrec.2]⟩

/-- Witness for C4: with one healthy table followed by a table without a
primary key, `Verify` hashes only the first table and aborts with the error
naming the second. -/
theorem verify_requires_primary_key_witness :
    (verifyTables (fun _ => .ok "h") (fun _ => .ok "h")
        ([⟨"public", "users", ["tenant", "id"]⟩] ++ (⟨"public", "nopk", []⟩ : Table) ::
          [])).result = .error (noPkMsg ⟨"public", "nopk", []⟩) ∧
    (verifyTables (fun _ => .ok "h") (fun _ => .ok "h")
        ([⟨"public", "users", ["tenant", "id"]⟩] ++ (⟨"public", "nopk", []⟩ : Table) ::
          [])).hashed = [⟨"public", "users", ["tenant", "id"]⟩] :=
  (verify_requires_primary_key (fun _ => .ok "h") (fun _ => .ok "h")).2
    [⟨"public", "users", ["tenant", "id"]⟩] ⟨"public", "nopk", []⟩ []
    (by decide) (by decide)

theorem verify_queries_eq (src tgt : String → Except String String) :
    ∀ tables : List Table,
      (∀ t ∈ tables, 1 ≤ t.pkeyFields.length) →
      (∀ t ∈ tables, exceptIsOk (src (tableQuery t)) = true ∧
        exceptIsOk (tgt (tableQuery t)) = true) →
      (verifyTables src tgt tables).srcQueries =
        (verifyTables src tgt tables).tgtQueries := by
  intro tables
  induction tables with
  | nil => intro _ _; rfl
  | cons t rest ih =>
    intro h1 h2
    have hpk := h1 t (List.mem_cons_self _ _)
    obtain ⟨hso, hto⟩ := h2 t (List.mem_cons_self _ _)
    obtain ⟨a, hs⟩ := (exceptIsOk_iff _).mp hso
    obtain ⟨b, ht⟩ := (exceptIsOk_iff _).mp hto
    by_cases hab : a = b
    · subst hab
      rw [verify_cons_ok src tgt t rest a hpk hs ht]
      have := ih (fun v hv => h1 v (List.mem_cons_of_mem _ hv))
        (fun v hv => h2 v (List.mem_cons_of_mem _ hv))
      simpa using this
    · rw [verify_cons_differ src tgt t rest a b hpk hs ht hab]

theorem verify_ok_iff (src tgt : String → Except String String) :
    ∀ tables : List Table,
      (∀ t ∈ tables, 1 ≤ t.pkeyFields.length) →
      (∀ t ∈ tables, exceptIsOk (src (tableQuery t)) = true ∧
        exceptIsOk (tgt (tableQuery t)) = true) →
      ((verifyTables src tgt tables).result = .ok () ↔
        ∀ t ∈ tables, src (tableQuery t) = tgt (tableQuery t)) := by
  intro tables
  induction tables with
  | nil => intro _ _; simp [verifyTables]
  | cons t rest ih =>
    intro h1 h2
    have hpk := h1 t (List.mem_cons_self _ _)
    obtain ⟨hso, hto⟩ := h2 t (List.mem_cons_self _ _)
    obtain ⟨a, hs⟩ := (exceptIsOk_iff _).mp hso
    obtain ⟨b, ht⟩ := (exceptIsOk_iff _).mp hto
    by_cases hab : a = b
    · subst hab
      rw [verify_cons_ok src tgt t rest a hpk hs ht]
      have hrec := ih (fun v hv => h1 v (List.mem_cons_of_mem _ hv))
        (fun v hv => h2 v (List.mem_cons_of_mem _ hv))
      constructor
      · intro hres v hv
        rcases List.mem_cons.mp hv with rfl | hv2
        · rw [hs, ht]
        · exact (hrec.mp hres) v hv2
      · intro hall
        exact hrec.mpr (fun v hv => hall v (List.mem_cons_of_mem _ hv))
    · rw [verify_cons_differ src tgt t rest a b hpk hs ht hab]
      constructor
      · intro hres
        cases hres
      · intro hall
        have := hall t (List.mem_cons_self _ _)
        rw [hs, ht] at this
        cases this
        exact absurd rfl hab

theorem verify_first_differ (src tgt : String → Except String String) :
    ∀ (pre : List Table) (t : Table) (post : List Table),
      (∀ u ∈ pre ++ t :: post, 1 ≤ u.pkeyFields.length) →
      (∀ u ∈ pre ++ t :: post, exceptIsOk (src (tableQuery u)) = true ∧
        exceptIsOk (tgt (tableQuery u)) = true) →
      (∀ u ∈ pre, src (tableQuery u) = tgt (tableQuery u)) →
      src (tableQuery t) ≠ tgt (tableQuery t) →
      (verifyTables src tgt (pre ++ t :: post)).result = .error (differMsg t) := by
  intro pre t post
  induction pre with
  | nil =>
    intro h1 h2 _ hne
    have hpk := h1 t (by simp)
    obtain ⟨hso, hto⟩ := h2 t (by simp)
    obtain ⟨a, hs⟩ := (exceptIsOk_iff _).mp hso
    obtain ⟨b, ht⟩ := (exceptIsOk_iff _).mp hto
    have hab : a ≠ b := by
      intro hh
      subst hh
      exact hne (by rw [hs, ht])
    rw [List.nil_append, verify_cons_differ src tgt t post a b hpk hs ht hab]
  | cons u us ih =>
    intro h1 h2 hpre hne
    have hpk := h1 u (List.mem_cons_self _ _)
    obtain ⟨hso, hto⟩ := h2 u (List.mem_cons_self _ _)
    obtain ⟨a, hs⟩ := (exceptIsOk_iff _).mp hso
    obtain ⟨b, ht⟩ := (exceptIsOk_iff _).mp hto
    have hab : a = b := by
      have := hpre u (List.mem_cons_self _ _)
      rw [hs, ht] at this
      cases this
      rfl
    subst hab
    rw [List.cons_append, verify_cons_ok src tgt u (us ++ t :: post) a hpk hs ht]
    exact ih (fun v hv => h1 v (List.mem_cons_of_mem _ hv))
      (fun v hv => h2 v (List.mem_cons_of_mem _ hv))
      (fun v hv => hpre v (List.mem_cons_of_mem _ hv)) hne

/-- Claim C5: the verifier sends the identical query text to the source and
the target connections, compares the two scanned checksums exactly, aborts
with an error naming the first table whose checksums differ, and returns ok
only when every selected table's checksums are equal (assuming every table
has a primary key and both scans succeed). -/
theorem verify_exact_comparison (src tgt : String → Except String String)
    (tables : List Table)
    (h1 : ∀ t ∈ tables, 1 ≤ t.pkeyFields.length)
    (h2 : ∀ t ∈ tables, exceptIsOk (src (tableQuery t)) = true ∧
      exceptIsOk (tgt (tableQuery t)) = true) :
    ((verifyTables src tgt tables).srcQueries =
      (verifyTables src tgt tables).tgtQueries) ∧
    ((verifyTables src tgt tables).result = .ok () ↔
      ∀ t ∈ tables, src (tableQuery t) = tgt (tableQuery t)) ∧
    (∀ (pre : List Table) (t : Table) (post : List Table),
        tables = pre ++ t :: post →
        (∀ u ∈ pre, src (tableQuery u) = tgt (tableQuery u)) →
        src (tableQuery t) ≠ tgt (tableQuery t) →
        (verifyTables src tgt tables).result = .error (differMsg t)) := by
  refine ⟨verify_queries_eq src tgt tables h1 h2, verify_ok_iff src tgt tables h1 h2, ?_⟩
  intro pre t post heq hpre hne
  subst heq
  exact verify_first_differ src tgt pre t post h1 h2 hpre hne

/-- Witness for C5: a concrete run where both sides scan equal checksums
issues the same query list on both connections. -/
theorem verify_exact_comparison_witness :
    (verifyTables (fun _ => .ok "h") (fun _ => .ok "h")
        [⟨"public", "users", ["tenant", "id"]⟩]).srcQueries =
      (verifyTables (fun _ => .ok "h") (fun _ => .ok "h")
        [⟨"public", "users", ["tenant", "id"]⟩]).tgtQueries :=
  (verify_exact_comparison (fun _ => .ok "h") (fun _ => .ok "h")
      [⟨"public", "users", ["tenant", "id"]⟩] (by decide) (by decide)).1

/-- Claim C6: for a table with at least one primary-key field, the slot
writes of the `pkColumns` loop are all in bounds (the checked construction
returns `some`, each position `p` writing slot `p-1`), the built slice
lists every primary-key column in order, and the checksum query contains an
ORDER BY clause over the full primary key. -/
theorem verify_orderby_full_primary_key (t : Table) (h : 1 ≤ t.pkeyFields.length) :
    buildPKColumns t = some (t.pkeyFields.map (pkColumnRef t)) ∧
    tableQuery t =
      "SELECT pg_md5_hashagg(md5(CAST((" ++ quoteIdent t.schema ++ "." ++
        quoteIdent t.name ++ ".*)AS TEXT))" ++
        ("ORDER BY " ++ String.intercalate "," (t.pkeyFields.map (pkColumnRef t))) ++
        ") FROM " ++ quoteIdent t.schema ++ "." ++ quoteIdent t.name :=
  ⟨buildPKColumns_eq t, by rw [tableQuery_eq]; rfl⟩

/-- Witness for C6: the two-column primary key of a concrete table is fully
listed in its ORDER BY clause. -/
theorem verify_orderby_full_primary_key_witness :
    buildPKColumns ⟨"public", "users", ["tenant", "id"]⟩ =
      some ((⟨"public", "users", ["tenant", "id"]⟩ : Table).pkeyFields.map
        (pkColumnRef ⟨"public", "users", ["tenant", "id"]⟩)) ∧
    tableQuery ⟨"public", "users", ["tenant", "id"]⟩ =
      "SELECT pg_md5_hashagg(md5(CAST((" ++ quoteIdent "public" ++ "." ++
        quoteIdent "users" ++ ".*)AS TEXT))" ++
        ("ORDER BY " ++ String.intercalate ","
          ((⟨"public", "users", ["tenant", "id"]⟩ : Table).pkeyFields.map
            (pkColumnRef ⟨"public", "users", ["tenant", "id"]⟩))) ++
        ") FROM " ++ quoteIdent "public" ++ "." ++ quoteIdent "users" :=
  verify_orderby_full_primary_key ⟨"public", "users", ["tenant", "id"]⟩ (by decide)

/-- The least element of the list strictly above `floor`, if any. -/
def leastAbove (floor : Int) : List Int → Option Int
  | [] => none
  | x :: xs =>
      match leastAbove floor xs with
      | none => if floor < x then some x else none
      | some m => if floor < x && x < m then some x else some m

/-- Modelled from the spec: the notify listener is not under `src/`.  Per
§4.B `listen` yields an ordered, de-duplicated sequence of changesets
starting at `max(cursor, start_from_id)+1`, so its first emission is the
changeset with the least source id strictly above `max(cursor,
start_from_id)`. -/
def firstEmitted (source : List Int) (cursor startFromID : Int) : Option Int :=
  leastAbove (max cursor startFromID) source

theorem leastAbove_gt (floor : Int) :
    ∀ (src : List Int) (m : Int), leastAbove floor src = some m → floor < m := by
  intro src
  induction src with
  | nil => intro m h; cases h
  | cons x xs ih =>
    intro m h
    simp only [leastAbove] at h
    rcases hr : leastAbove floor xs with _ | m0 <;> simp only [hr] at h
    · by_cases hfx : floor < x
      · rw [if_pos hfx] at h
        injection h with h2
        omega
      · rw [if_neg hfx] at h
        cases h
    · by_cases hc : (decide (floor < x) && decide (x < m0)) = true
      · rw [if_pos hc] at h
        injection h with h2
        rw [Bool.and_eq_true] at hc
        have hfx := of_decide_eq_true hc.1
        omega
      · rw [if_neg hc] at h
        injection h with h2
        have hrec := ih m0 hr
        omega

theorem leastAbove_min (floor x : Int) :
    ∀ src : List Int, x ∈ src → floor < x →
      ∃ m, leastAbove floor src = some m ∧ floor < m ∧ m ≤ x := by
  intro src
  induction src with
  | nil => intro hx; cases hx
  | cons y ys ih =>
    intro hx hfx
    rcases List.mem_cons.mp hx with rfl | hys
    · rcases hr : leastAbove floor ys with _ | m0
      · refine ⟨x, ?_, hfx, le_refl x⟩
        simp [leastAbove, hr, hfx]
      · have hm0 := leastAbove_gt floor ys m0 hr
        by_cases hxm : x < m0
        · refine ⟨x, ?_, hfx, le_refl x⟩
          simp [leastAbove, hr, hfx, hxm]
        · refine ⟨m0, ?_, hm0, by omega⟩
          simp [leastAbove, hr, hxm]
    · obtain ⟨m, hm, hm1, hm2⟩ := ih hys hfx
      rcases hfy : decide (floor < y) with _ | _
      · by_cases hym : y < m
        · refine ⟨m, ?_, hm1, hm2⟩
          simp only [leastAbove, hm]
          have : ¬ (floor < y) := of_decide_eq_false hfy
          simp [this]
        · refine ⟨m, ?_, hm1, hm2⟩
          simp only [leastAbove, hm]
          have : ¬ (floor < y) := of_decide_eq_false hfy
          simp [this]
      · have hfy' : floor < y := of_decide_eq_true hfy
        by_cases hym : y < m
        · refine ⟨y, ?_, hfy', by omega⟩
          simp [leastAbove, hm, hfy', hym]
        · refine ⟨m, ?_, hm1, hm2⟩
          simp [leastAbove, hm, hfy', hym]

theorem leastAbove_succ (floor : Int) (src : List Int) (hmem : floor + 1 ∈ src) :
    leastAbove floor src = some (floor + 1) := by
  obtain ⟨m, hm, hm1, hm2⟩ := leastAbove_min floor (floor + 1) src hmem (by omega)
  have : m = floor + 1 := by omega
  rw [hm, this]

theorem config_fields (env : Env) (cfg : AxonConfig)
    (h : NewAxonConfigFromEnv env = .ok cfg) :
    cfg.targetDBSchema = envString env "AXON_TARGET_DB_SCHEMA" "public" ∧
      ∃ sfid, envInt env "AXON_START_FROM_ID" = .ok sfid ∧ cfg.startFromID = sfid := by
  simp only [NewAxonConfigFromEnv] at h
  split at h
  · simp at h
  · split at h
    · simp at h
    · split at h
      · simp at h
      · split at h
        · simp at h
        · rename_i sfid heq
          injection h with h2
          subst h2
          exact ⟨rfl, sfid, heq, rfl⟩

/-- Claim C9: the configuration recognizes `AXON_START_FROM_ID` as an
integer option, `Run` constructs its listener from the configured id, and
the emitted changeset stream begins at `max(cursor, start_from_id)+1`
whenever the source holds that id. -/
theorem config_start_from_id (env : Env) (s : String) (n : Int) (cfg : AxonConfig)
    (source : List Int) (cursor : Int)
    (h1 : env.lookup "AXON_START_FROM_ID" = some s)
    (h2 : parseIntString s = some n)
    (h3 : NewAxonConfigFromEnv env = .ok cfg) :
    cfg.startFromID = n ∧ runListenerStartID cfg = n ∧
      (max cursor n + 1 ∈ source →
        firstEmitted source cursor (runListenerStartID cfg) = some (max cursor n + 1)) := by
  obtain ⟨_, sfid, hsf, hcur⟩ := config_fields env cfg h3
  have hn : envInt env "AXON_START_FROM_ID" = .ok n := by
    simp [envInt, h1, h2]
  rw [hn] at hsf
  injection hsf with hsn
  have hcn : cfg.startFromID = n := by rw [hcur, hsn]
  refine ⟨hcn, by rw [runListenerStartID, hcn], ?_⟩
  intro hmem
  rw [runListenerStartID, hcn, firstEmitted]
  exact leastAbove_succ (max cursor n) source hmem

/-- The environment of the C9 witness: only `AXON_START_FROM_ID` is set. -/
def env41 : Env := ⟨fun k => if k == "AXON_START_FROM_ID" then some "41" else none⟩

/-- The configuration loaded from `env41`. -/
def cfg41 : AxonConfig :=
  ⟨"", 0, "", "", "", "", 0, "", "", "", "public", false, 41⟩

/-- Witness for C9: with `AXON_START_FROM_ID=41` and a cursor of 7, the
first emitted changeset id is 42. -/
theorem config_start_from_id_witness :
    firstEmitted [43, 42, 45] 7 (runListenerStartID cfg41) = some (max (7 : Int) 41 + 1) :=
  (config_start_from_id env41 "41" 41 cfg41 [43, 42, 45] 7 (by decide) (by decide)
    (by decide)).2.2 (by decide)

/-- Claim C10: `TargetDBSchema` defaults to `public` when its variable is
unset, in which case every applied changeset's schema is rewritten to
`public`; a set variable is taken verbatim; and with the variable
explicitly set to the empty string the override is disabled, so changesets
reach `processChange` unchanged, original schema included. -/
theorem default_schema_override (env : Env) (cfg : AxonConfig)
    (h : NewAxonConfigFromEnv env = .ok cfg) :
    (env.lookup "AXON_TARGET_DB_SCHEMA" = none → cfg.targetDBSchema = "public" ∧
      ∀ (isLatest : Int → Except String Bool) (db : Statement → ExecResult)
        (pending : Bool) (events : List Event),
        (runLoop cfg isLatest db pending events).applied.all
          (fun c => c.schema == "public") = true) ∧
    (∀ v, env.lookup "AXON_TARGET_DB_SCHEMA" = some v → cfg.targetDBSchema = v) ∧
    (env.lookup "AXON_TARGET_DB_SCHEMA" = some "" →
      ∀ (isLatest : Int → Except String Bool) (db : Statement → ExecResult)
        (pending : Bool) (events : List Event) (x : Changeset),
        x ∈ (runLoop cfg isLatest db pending events).applied →
        ∃ c, Event.change c ∈ events ∧ x = c) := by
  have hschema := (config_fields env cfg h).1
  refine ⟨?_, ?_, ?_⟩
  · intro hnone
    have hts : cfg.targetDBSchema = "public" := by
      rw [hschema, envString, hnone]
    refine ⟨hts, ?_⟩
    intro isLatest db pending events
    rw [List.all_eq_true]
    intro x hx
    obtain ⟨c, _, rfl⟩ := runLoop_applied_mem cfg isLatest db events pending x hx
    have hne : cfg.targetDBSchema ≠ "" := by simp [hts]
    simp [applyOverride_schema cfg c hne, hts]
  · intro v hv
    rw [hschema, envString, hv]
  · intro hemp isLatest db pending events x hx
    have hts : cfg.targetDBSchema = "" := by
      rw [hschema, envString, hemp]
    obtain ⟨c, hc, rfl⟩ := runLoop_applied_mem cfg isLatest db events pending x hx
    exact ⟨c, hc, by simp [applyOverride, hts]⟩

/-- The empty environment of the C10 witness. -/
def envUnset : Env := ⟨fun _ => none⟩

/-- The configuration loaded from the empty environment. -/
def cfgDefault : AxonConfig :=
  ⟨"", 0, "", "", "", "", 0, "", "", "", "public", false, 0⟩

/-- Witness for C10: under the empty environment the loaded target schema
is `public` and a concrete run rewrites the received changeset to it. -/
theorem default_schema_override_witness :
    cfgDefault.targetDBSchema = "public" ∧
    (runLoop cfgDefault (fun _ => .ok false) (fun _ => .ok) false
        [Event.change sampleChange]).applied.all
      (fun c => c.schema == "public") = true :=
  ⟨((default_schema_override envUnset cfgDefault rfl).1 rfl).1,
    ((default_schema_override envUnset cfgDefault rfl).1 rfl).2
      (fun _ => .ok false) (fun _ => .ok) false [Event.change sampleChange]⟩

end WarpPipe
